import Mathlib

/-
  Verification development for the Nora support-chat frontend
  (src/frontend/app/page.tsx): the consumer-side stream reducer, the
  status-message mapper, and the bulk batch orchestrator, embedded
  shallowly as pure Lean functions over an explicit state.
-/

/-- Model of a parsed JSON value as produced by the JSON.parse builtin.
    A single constructor null stands for both the JSON null value and
    the JavaScript undefined value: the reducer only ever distinguishes
    them through truthiness, where both are falsy. -/
inductive Json where
  | null
  | bool (b : Bool)
  | num (n : Int)
  | str (s : String)
  | arr (xs : List Json)
  | obj (kvs : List (String × Json))

/-- First-match association lookup inside a JSON object.
    The protocol payloads never use duplicate keys, so first-match
    agrees with the JavaScript object semantics on all inputs used. -/
def assocGet (k : String) : List (String × Json) → Json
  | [] => Json.null
  | (k2, v) :: rest => if k2 = k then v else assocGet k rest

/-- Model of JavaScript property access parsed.k on a parsed JSON value:
    missing keys and access on non-objects yield undefined (Json.null here).
    Property access on the null value throws in JavaScript, but every such
    access in the source happens inside the try block before any state
    update on that line, so the thrown-and-caught behaviour coincides with
    returning a falsy value and taking no branch. -/
def jsGet (j : Json) (k : String) : Json :=
  match j with
  | Json.obj kvs => assocGet k kvs
  | _ => Json.null

/-- JavaScript truthiness of a parsed JSON value: null/undefined, false,
    0 and the empty string are falsy; arrays and objects are always truthy. -/
def Json.truthy : Json → Bool
  | Json.null => false
  | Json.bool b => b
  | Json.num n => n ≠ 0
  | Json.str s => s ≠ ""
  | Json.arr _ => true
  | Json.obj _ => true

/-- Model of the JavaScript expression a or-else b (the binary pipe-pipe
    operator): the first operand when truthy, the second otherwise. -/
def jsOr (a b : Json) : Json :=
  if a.truthy then a else b

/-- Model of the JavaScript test x.length greater than 0 used on
    responseSources: arrays and strings use their length, plain objects
    read an explicit length property, anything else gives undefined
    which compares as false. -/
def lenPos : Json → Bool
  | Json.arr xs => xs.length ≠ 0
  | Json.str s => s.length ≠ 0
  | Json.obj kvs =>
    match assocGet "length" kvs with
    | Json.num n => 0 < n
    | _ => false
  | _ => false

/-- Strict triple-equals comparison of a parsed JSON value against a
    string literal, as in parsed.type === a literal. -/
def isStrEq (j : Json) (s : String) : Bool :=
  match j with
  | Json.str t => t = s
  | _ => false

/-- Reads a JSON value expected to be a string by the wire protocol
    (the node and message fields of node_complete events). -/
def asStr : Json → String
  | Json.str s => s
  | _ => ""

/-- Whitespace recognized by the String.trim builtin and the regex
    whitespace class, restricted to the ASCII whitespace the protocol
    can produce. -/
def isWsChar (c : Char) : Bool :=
  c = ' ' || c = '\t' || c = '\n' || c = '\r' || c = '\x0b' || c = '\x0c'

/-- Model of the String.trim builtin: remove whitespace from both ends. -/
def trimChars (s : List Char) : List Char :=
  ((s.dropWhile isWsChar).reverse.dropWhile isWsChar).reverse

/-- Case-insensitive match of the word w at the head of s,
    returning the remainder on success. -/
def matchCI : List Char → List Char → Option (List Char)
  | [], s => some s
  | _ :: _, [] => none
  | w :: ws, c :: cs => if w.toLower = c.toLower then matchCI ws cs else none

/-- Model of the regex replace s.replace(slash word backslash-s plus slash i, repl):
    find the first position where the word occurs case-insensitively followed by
    at least one whitespace character, replace the word and the (greedily
    consumed) whitespace run by repl, leave the rest unchanged. -/
def replFirstCI (w repl : List Char) : List Char → List Char
  | [] => []
  | c :: cs =>
    match matchCI w (c :: cs) with
    | some rest =>
      match rest with
      | r :: rs =>
        if isWsChar r then repl ++ rs.dropWhile isWsChar
        else c :: replFirstCI w repl cs
      | [] => c :: replFirstCI w repl cs
    | none => c :: replFirstCI w repl cs

/-- The generic cleanup applied to a raw progress message when the node is
    not in the status table: remove the first case-insensitive occurrence
    of Processing followed by whitespace, then replace the first
    case-insensitive occurrence of Completed followed by whitespace with
    the text Finished and a space. The third replace in the source maps
    every occurrence of three dots to three dots and is the identity on
    the string value, so it is omitted. -/
def cleanupMessage (message : String) : String :=
  String.mk (replFirstCI "completed".toList "Finished ".toList
    (replFirstCI "processing".toList [] message.toList))

/-- The fixed node-to-phrase table of getFriendlyStatusMessage. Every
    phrase in the table is a non-empty string, so the truthiness test
    on the looked-up value in the source succeeds exactly when the node
    is one of these four keys. -/
def statusMap (node : String) : Option String :=
  if node = "classify" then some "Understanding your question..."
  else if node = "agent" then some "Preparing response..."
  else if node = "document_search" then some "Searching knowledge base..."
  else if node = "finalize_response" then some "Finalizing answer..."
  else none

/-- Model of getFriendlyStatusMessage: map the node through the fixed
    table when present, otherwise clean up the raw message. -/
def getFriendlyStatusMessage (node message : String) : String :=
  match statusMap node with
  | some s => s
  | none => cleanupMessage message

-- Characters written via their code points so that no brace or quote
-- appears in a character literal.
def openBraceChar : Char := Char.ofNat 123

def closeBraceChar : Char := Char.ofNat 125

def quoteChar : Char := Char.ofNat 34

/-- String-literal body of a JSON text: characters up to the closing
    quote, decoding the basic escapes the protocol uses. Returns the
    decoded content and the remainder after the closing quote. -/
def parseStrAux : List Char → Option (List Char × List Char)
  | [] => none
  | c :: rest =>
    if c = quoteChar then some ([], rest)
    else if c = '\\' then
      match rest with
      | [] => none
      | e :: rest2 =>
        let dec : Option Char :=
          if e = 'n' then some '\n'
          else if e = 't' then some '\t'
          else if e = 'r' then some '\r'
          else if e = 'b' then some (Char.ofNat 8)
          else if e = 'f' then some (Char.ofNat 12)
          else if e = '/' then some '/'
          else if e = '\\' then some '\\'
          else if e = quoteChar then some quoteChar
          else none
        match dec with
        | none => none
        | some ch =>
          match parseStrAux rest2 with
          | none => none
          | some (s, r) => some (ch :: s, r)
    else
      match parseStrAux rest with
      | none => none
      | some (s, r) => some (c :: s, r)

/-- Digit run of a JSON number, accumulating its value. -/
def parseDigits : List Char → Nat → Nat × List Char
  | [], acc => (acc, [])
  | c :: rest, acc =>
    if c.isDigit then parseDigits rest (acc * 10 + (c.toNat - 48))
    else (acc, c :: rest)

mutual

/-- Fueled recursive-descent model of the JSON.parse builtin, restricted
    to the value grammar the wire protocol uses: objects, arrays, strings
    with basic escapes, integer numbers, booleans and null. -/
def parseVal : Nat → List Char → Option (Json × List Char)
  | 0, _ => none
  | Nat.succ fuel, s0 =>
    let s := s0.dropWhile isWsChar
    match s with
    | [] => none
    | c :: rest =>
      if c = openBraceChar then parseMembers fuel (rest.dropWhile isWsChar) []
      else if c = '[' then parseElems fuel (rest.dropWhile isWsChar) []
      else if c = quoteChar then
        match parseStrAux rest with
        | none => none
        | some (t, r) => some (Json.str (String.mk t), r)
      else if c = 't' then
        match rest with
        | 'r' :: 'u' :: 'e' :: r => some (Json.bool true, r)
        | _ => none
      else if c = 'f' then
        match rest with
        | 'a' :: 'l' :: 's' :: 'e' :: r => some (Json.bool false, r)
        | _ => none
      else if c = 'n' then
        match rest with
        | 'u' :: 'l' :: 'l' :: r => some (Json.null, r)
        | _ => none
      else if c = '-' then
        match rest with
        | d :: _ =>
          if d.isDigit then
            let (n, r) := parseDigits rest 0
            some (Json.num (-(n : Int)), r)
          else none
        | [] => none
      else if c.isDigit then
        let (n, r) := parseDigits (c :: rest) 0
        some (Json.num (n : Int), r)
      else none

/-- Members of a JSON object after the opening brace (whitespace skipped),
    with the already-parsed members accumulated in reverse. -/
def parseMembers : Nat → List Char → List (String × Json) →
    Option (Json × List Char)
  | 0, _, _ => none
  | Nat.succ fuel, s, acc =>
    match s with
    | [] => none
    | c :: rest =>
      if c = closeBraceChar then some (Json.obj acc.reverse, rest)
      else if c = quoteChar then
        match parseStrAux rest with
        | none => none
        | some (k, r1) =>
          match r1.dropWhile isWsChar with
          | ':' :: r2 =>
            match parseVal fuel r2 with
            | none => none
            | some (v, r3) =>
              match r3.dropWhile isWsChar with
              | ',' :: r4 =>
                parseMembers fuel (r4.dropWhile isWsChar)
                  ((String.mk k, v) :: acc)
              | d :: r4 =>
                if d = closeBraceChar then
                  some (Json.obj (((String.mk k, v) :: acc)).reverse, r4)
                else none
              | [] => none
          | _ => none
      else none

/-- Elements of a JSON array after the opening bracket (whitespace
    skipped), with the already-parsed elements accumulated in reverse. -/
def parseElems : Nat → List Char → List Json → Option (Json × List Char)
  | 0, _, _ => none
  | Nat.succ fuel, s, acc =>
    match s with
    | [] => none
    | c :: rest =>
      if c = ']' then some (Json.arr acc.reverse, rest)
      else
        match parseVal fuel s with
        | none => none
        | some (v, r1) =>
          match r1.dropWhile isWsChar with
          | ',' :: r2 => parseElems fuel (r2.dropWhile isWsChar) (v :: acc)
          | ']' :: r2 => some (Json.arr (v :: acc).reverse, r2)
          | _ => none

end

/-- Model of JSON.parse on a whole data line payload: a value followed by
    nothing but trailing whitespace, none on any parse failure. The fuel
    exceeds the nesting and member count of any input of this length. -/
def jsonParse (s : List Char) : Option Json :=
  match parseVal (s.length + 1) s with
  | some (v, r) => if r.dropWhile isWsChar = [] then some v else none
  | none => none

/-- One entry of the session message list. The wall-clock timestamp
    attached to user messages in the source is real time and is not
    modelled; the role and content fields are. Content is a parsed
    JSON value because the generic fallback extraction in the source
    can append non-string payloads. -/
structure Msg where
  role : String
  content : Json

/-- The reducer-visible React state of the chat page together with the
    per-turn timer context: the session message list, the loading flag,
    the status line, the citation set, the stored internal-analysis
    classification (its reception timestamp is wall clock and not
    modelled), whether the rateLimitTimer state variable currently holds
    a timer handle, the truthiness of the rateLimitTimer value the
    dispatch render captured in the closures of the current turn (a stale
    closure: state updates after dispatch never change it, so it is a
    constant of the turn and is represented as a field the reducer never
    writes), and whether the timeout armed for the current turn is still
    pending. -/
structure Core where
  messages : List Msg
  isLoading : Bool
  currentStatus : String
  citations : Json
  internalAnalysis : Option Json
  rlTimerSet : Bool
  capturedRlTruthy : Bool
  rlPending : Bool

/-- The useState initial values of the chat page, before any turn: no
    timer handle is held, no dispatch closure exists and no timeout is
    pending. -/
def initialCore : Core :=
  { messages := [], isLoading := false, currentStatus := "",
    citations := Json.arr [], internalAnalysis := none, rlTimerSet := false,
    capturedRlTruthy := false, rlPending := false }

/-- The statements if (rateLimitTimer) then clearTimeout(rateLimitTimer);
    setRateLimitTimer(null) that accompany every terminal branch of the
    stream loop. The guard reads the stale rateLimitTimer value captured
    by the dispatch closure, not the current state: the state variable is
    nulled only when that captured value was truthy (on a first turn it
    is null, so nothing is cleared), and the clearTimeout cancels the
    captured, prior-turn handle, never the timeout armed for the current
    turn, whose pending flag is therefore untouched. -/
def clearRl (c : Core) : Core :=
  { c with rlTimerSet := if c.capturedRlTruthy then false else c.rlTimerSet }

/-- State update for one successfully parsed data-line payload, following
    the branch chain of handleSendMessage: the flattened terminal shape,
    then node_complete progress events, then the final_response or
    final_result shapes with their generic content fallback, then the
    legacy response.data shape; any other payload changes nothing. -/
def handleParsed (c : Core) (p : Json) : Core :=
  if (jsGet p "internal_analysis").truthy && (jsGet p "final_response").truthy then
    let c1 := clearRl { c with
      currentStatus := "",
      isLoading := false,
      internalAnalysis := some (jsGet (jsGet p "internal_analysis") "classification") }
    let fr := jsGet p "final_response"
    let fc :=
      if isStrEq (jsGet fr "response_type") "rag_answer"
          && (jsGet fr "rag_response").truthy then
        jsGet (jsGet fr "rag_response") "answer"
      else if isStrEq (jsGet fr "response_type") "routing_message"
          && (jsGet fr "routing_response").truthy then
        jsGet (jsGet fr "routing_response") "message"
      else Json.str ""
    let srcs :=
      if isStrEq (jsGet fr "response_type") "rag_answer"
          && (jsGet fr "rag_response").truthy then
        jsOr (jsGet (jsGet fr "rag_response") "sources") (Json.arr [])
      else Json.arr []
    if fc.truthy then
      let c2 := { c1 with messages := c1.messages ++ [⟨"assistant", fc⟩] }
      if lenPos srcs then { c2 with citations := srcs } else c2
    else c1
  else if isStrEq (jsGet p "type") "node_complete" then
    let c1 :=
      if (jsGet p "message").truthy then
        { c with
          currentStatus := getFriendlyStatusMessage (asStr (jsGet p "node"))
                             (asStr (jsGet p "message")) }
      else c
    if isStrEq (jsGet p "node") "classify" && (jsGet p "data").truthy then
      { c1 with internalAnalysis := some (jsGet p "data") }
    else c1
  else if isStrEq (jsGet p "type") "final_response"
      || isStrEq (jsGet p "type") "final_result" then
    let c1 := clearRl { c with currentStatus := "", isLoading := false }
    let wrapped := isStrEq (jsGet p "type") "final_result" && (jsGet p "data").truthy
    let rd := jsGet p "data"
    let c2 :=
      if wrapped && (jsGet rd "internal_analysis").truthy then
        { c1 with
          internalAnalysis := some (jsGet (jsGet rd "internal_analysis") "classification") }
      else c1
    let fc :=
      if wrapped then
        if (jsGet (jsGet (jsGet rd "final_response") "rag_response") "answer").truthy then
          jsGet (jsGet (jsGet rd "final_response") "rag_response") "answer"
        else if (jsGet (jsGet (jsGet rd "final_response") "routing_response") "message").truthy then
          jsGet (jsGet (jsGet rd "final_response") "routing_response") "message"
        else Json.str ""
      else jsOr (jsGet p "data") (jsOr (jsGet p "content") (jsGet (jsGet p "response") "data"))
    let srcs :=
      if wrapped
          && (jsGet (jsGet (jsGet rd "final_response") "rag_response") "answer").truthy then
        jsOr (jsGet (jsGet (jsGet rd "final_response") "rag_response") "sources") (Json.arr [])
      else Json.arr []
    let c3 :=
      if fc.truthy then
        let cm := { c2 with messages := c2.messages ++ [⟨"assistant", fc⟩] }
        if lenPos srcs then { cm with citations := srcs } else cm
      else c2
    if (jsGet p "citations").truthy || (jsGet (jsGet p "response") "citations").truthy then
      { c3 with
        citations := jsOr (jsGet p "citations") (jsGet (jsGet p "response") "citations") }
    else c3
  else if (jsGet p "response").truthy && (jsGet (jsGet p "response") "data").truthy then
    let c1 := clearRl { c with
      currentStatus := "",
      isLoading := false,
      messages := c.messages ++ [⟨"assistant", jsGet (jsGet p "response") "data"⟩] }
    if (jsGet (jsGet p "response") "citations").truthy then
      { c1 with citations := jsGet (jsGet p "response") "citations" }
    else c1
  else c

/-- The six-character data-line marker. -/
def dataMarker : List Char := ['d', 'a', 't', 'a', ':', ' ']

/-- The literal completion sentinel payload. -/
def doneToken : List Char := ['[', 'D', 'O', 'N', 'E', ']']

/-- The payload of a line: everything after the marker, trimmed. -/
def lineData (line : List Char) : List Char :=
  trimChars (line.drop 6)

/-- Processing of one complete line inside the stream loop: only lines
    whose first six characters are the data marker are candidates; the
    sentinel clears the loading flag, the status and the timer state and
    is not parsed; empty payloads and payloads that fail to parse are
    skipped; every other payload goes through handleParsed. -/
def lineStep (c : Core) (line : List Char) : Core :=
  if line.take 6 = dataMarker then
    let d := lineData line
    if d = doneToken then
      clearRl { c with isLoading := false, currentStatus := "" }
    else if d = [] then c
    else
      match jsonParse d with
      | some p => handleParsed c p
      | none => c
  else c

/-- Reducer state between chunks: the React state plus the pending
    buffer holding the last, possibly incomplete, line. -/
structure RState where
  core : Core
  buffer : List Char

/-- Split a text into its complete newline-terminated lines and the
    trailing remainder, matching buffer.split on newline followed by
    popping the last element. -/
def splitNl : List Char → List (List Char) × List Char
  | [] => ([], [])
  | c :: rest =>
    let r := splitNl rest
    if c = '\n' then ([] :: r.1, r.2)
    else
      match r.1 with
      | [] => ([], c :: r.2)
      | l :: ls => ((c :: l) :: ls, r.2)

/-- Processing of one inbound chunk: append it to the pending buffer,
    split on newline, hold back the last (possibly incomplete) line as
    the new pending buffer, and run lineStep over all complete lines in
    order. Chunks are modelled at the character level: the streaming
    text decoder in the source reassembles partial UTF-8 sequences, so
    every byte-level split is observationally a character-level split. -/
def feed (s : RState) (chunk : List Char) : RState :=
  let parts := splitNl (s.buffer ++ chunk)
  { core := parts.1.foldl lineStep s.core, buffer := parts.2 }

/-- The terminal-payload extraction of the end-of-stream flush: unlike
    the in-loop chain, it recognizes only the final_result-wrapped
    shape with a truthy data field. -/
def flushHandle (c : Core) (p : Json) : Core :=
  if isStrEq (jsGet p "type") "final_result" && (jsGet p "data").truthy then
    let rd := jsGet p "data"
    let c1 :=
      if (jsGet rd "internal_analysis").truthy then
        { c with
          internalAnalysis := some (jsGet (jsGet rd "internal_analysis") "classification") }
      else c
    let fc :=
      if (jsGet (jsGet (jsGet rd "final_response") "rag_response") "answer").truthy then
        jsGet (jsGet (jsGet rd "final_response") "rag_response") "answer"
      else if (jsGet (jsGet (jsGet rd "final_response") "routing_response") "message").truthy then
        jsGet (jsGet (jsGet rd "final_response") "routing_response") "message"
      else Json.str ""
    let srcs :=
      if (jsGet (jsGet (jsGet rd "final_response") "rag_response") "answer").truthy then
        jsOr (jsGet (jsGet (jsGet rd "final_response") "rag_response") "sources") (Json.arr [])
      else Json.arr []
    if fc.truthy then
      let c2 := { c1 with messages := c1.messages ++ [⟨"assistant", fc⟩] }
      if lenPos srcs then { c2 with citations := srcs } else c2
    else c1
  else c

/-- The final processing pass the stream-end branch runs over a
    non-empty pending buffer: trim it, require the data marker, skip
    empty and sentinel payloads, and hand a successfully parsed payload
    to flushHandle. -/
def flushCore (c : Core) (buffer : List Char) : Core :=
  if trimChars buffer = [] then c
  else
    let line := trimChars buffer
    if line.take 6 = dataMarker then
      let d := trimChars (line.drop 6)
      if d = [] then c
      else if d = doneToken then c
      else
        match jsonParse d with
        | some p => flushHandle c p
        | none => c
    else c

/-- The stream-end branch: flush the pending buffer, then run the
    loading-state cleanup guarded by the isLoading value the turn
    closure captured at dispatch time (a stale closure: React state
    updates after dispatch do not change it). -/
def doneStep (captured : Bool) (s : RState) : Core :=
  let c := flushCore s.core s.buffer
  if captured then
    clearRl { c with currentStatus := "Processing complete", isLoading := false }
  else c

/-- The finally block of handleSendMessage: unconditionally stop
    loading, clear the status and clear the timer state. -/
def finallyStep (c : Core) : Core :=
  clearRl { c with isLoading := false, currentStatus := "" }

/-- Whole-stream run of the chat reducer for one turn: start with an
    empty pending buffer, feed every chunk in order, then run the
    stream-end branch and the finally block. captured is the isLoading
    value the turn closure holds. -/
def runChatFrom (c0 : Core) (captured : Bool) (chunks : List (List Char)) : Core :=
  finallyStep (doneStep captured (chunks.foldl feed { core := c0, buffer := [] }))

/-- The advisory text the rate-limit watchdog would append. -/
def rateLimitAdvisory : String :=
  "As we are using free tier of Gemini API in backend, the request got rate limited, please try after 60 seconds 🙏"

/-- The synchronous prefix of handleSendMessage for a non-empty input:
    append the user message, set loading, set the initial status, reset
    citations and the internal analysis, clear any prior timer through
    the captured handle and arm a fresh rate-limit timer for this turn.
    Returns the new state together with the isLoading value captured by
    the closures created in this dispatch (the value of the render the
    dispatch ran in, before setIsLoading(true) takes effect); the same
    closures also capture the rateLimitTimer value of that render, whose
    truthiness is st.rlTimerSet and is recorded as the turn constant
    capturedRlTruthy. -/
def turnStart (st : Core) (message : String) : Core × Bool :=
  ({ st with
      messages := st.messages ++ [⟨"user", Json.str message⟩],
      isLoading := true,
      currentStatus := "Understanding your question...",
      citations := Json.arr [],
      internalAnalysis := none,
      rlTimerSet := true,
      capturedRlTruthy := st.rlTimerSet,
      rlPending := true },
   st.isLoading)

/-- The rate-limit watchdog callback, firing 15 seconds after dispatch:
    it tests the closure-captured isLoading value, and only when that
    captured value is true does it append the advisory assistant message,
    stop the loading indicator and clear the status. It never touches
    the network read. -/
def watchdogFire (captured : Bool) (c : Core) : Core :=
  if captured then
    { c with
        messages := c.messages ++ [⟨"assistant", Json.str rateLimitAdvisory⟩],
        isLoading := false,
        currentStatus := "" }
  else c

/-- Outcome of one processBatch call as seen by the bulk loop: either the
    object holding the streamed per-ticket results collected for that
    batch, or the error object built in the catch block, carrying the
    thrown error message. An ok outcome always carries an array, which is
    truthy in JavaScript even when empty. -/
inductive BOutcome where
  | ok (results : List Json)
  | err (msg : String)

/-- Number of per-ticket results a batch outcome contributes. -/
def resultLen : BOutcome → Nat
  | BOutcome.ok rs => rs.length
  | BOutcome.err _ => 0

/-- The bulk-mode React state the orchestrator drives. -/
structure BulkState where
  isLoading : Bool
  currentStatus : String
  bulkResults : List Json
  processedCount : Nat
  totalCount : Nat

/-- Observable scheduling events of a bulk run: a batch being submitted,
    the one-second error-display delay of a failed batch, the half-second
    delay of an empty outcome, and the fixed 200 millisecond inter-batch
    pause. -/
inductive BulkEv where
  | submit (idx : Nat)
  | pauseErrorDisplay
  | pauseNoResults
  | pauseInterBatch

/-- Partition of the uploaded tickets into groups of five, matching the
    slice loop of startBulkProcessing with batchSize 5. -/
def mkBatches : List Json → List (List Json)
  | [] => []
  | x :: xs => (x :: xs).take 5 :: mkBatches ((x :: xs).drop 5)
termination_by l => l.length
decreasing_by simp [List.length_drop]; omega

/-- One iteration of the sequential batch loop: set the processing
    status, submit the batch, then fold its outcome into the state
    exactly as the source does, emitting the matching delays; a final
    inter-batch pause follows every batch except the last. k is the
    total number of batches and i the zero-based batch index. -/
def batchStep (k i : Nat) (st : BulkState) (b : List Json) (o : BOutcome) :
    BulkState × List BulkEv :=
  let stArrive := { st with
    currentStatus := "Processing batch " ++ toString (i + 1) ++ " of "
      ++ toString k ++ " (" ++ toString b.length ++ " tickets)..." }
  let step : BulkState × List BulkEv :=
    match o with
    | BOutcome.ok rs =>
      ({ stArrive with
          bulkResults := stArrive.bulkResults ++ rs,
          processedCount := stArrive.processedCount + rs.length,
          currentStatus := "Batch " ++ toString (i + 1)
            ++ " completed successfully. " ++ toString rs.length
            ++ " tickets processed." }, [])
    | BOutcome.err m =>
      if m ≠ "" then
        ({ stArrive with
            currentStatus := "Batch " ++ toString (i + 1) ++ " failed: " ++ m
              ++ ". Continuing with next batch..." },
         [BulkEv.pauseErrorDisplay])
      else
        ({ stArrive with
            currentStatus := "Batch " ++ toString (i + 1)
              ++ " completed with no results." },
         [BulkEv.pauseNoResults])
  (step.1, BulkEv.submit i ::
    (step.2 ++ (if i < k - 1 then [BulkEv.pauseInterBatch] else [])))

/-- The sequential batch loop itself: batches are processed strictly in
    order, each submitted only after the previous one has been folded
    into the state; a failed batch never stops the recursion. The
    outcome oracle maps the batch index to what its stream produced. -/
def runBulkAux (out : Nat → BOutcome) (k : Nat) :
    Nat → List (List Json) → BulkState → BulkState × List BulkEv
  | _, [], st => (st, [])
  | i, b :: bs, st =>
    let step := batchStep k i st b (out i)
    let rest := runBulkAux out k (i + 1) bs step.1
    (rest.1, step.2 ++ rest.2)

/-- Model of startBulkProcessing: reset the running state, partition the
    tickets into batches of five, run the sequential loop, then report
    completion and stop loading. -/
def startBulkProcessing (out : Nat → BOutcome) (data : List Json)
    (st0 : BulkState) : BulkState × List BulkEv :=
  let st := { st0 with
    isLoading := true,
    currentStatus := "Starting batch processing...",
    bulkResults := [],
    processedCount := 0 }
  let batches := mkBatches data
  let run := runBulkAux out batches.length 0 batches st
  ({ run.1 with
      isLoading := false,
      currentStatus := "Processing complete: " ++ toString data.length
        ++ " tickets processed" }, run.2)

/-- The state updates of the successful path of handleFileUpload after
    validation: record the ticket count, reset the progress counters and
    results, and announce the upload. The uploaded file handle and the
    raw ticket data live outside this state. -/
def handleFileUpload (data : List Json) (st : BulkState) : BulkState :=
  { st with
      totalCount := data.length,
      processedCount := 0,
      bulkResults := [],
      currentStatus := "File uploaded: " ++ toString data.length
        ++ " tickets. Starting processing..." }

/-- Delay events a single batch outcome produces, as the claim-level
    description of the loop body. -/
def errEvs : BOutcome → List BulkEv
  | BOutcome.ok _ => []
  | BOutcome.err m =>
    if m ≠ "" then [BulkEv.pauseErrorDisplay] else [BulkEv.pauseNoResults]

/-- Claim-level event block of the batch with index j in a run of k
    batches: its submission, its outcome delays, and an inter-batch
    pause exactly when another batch follows. -/
def evFor (out : Nat → BOutcome) (k j : Nat) : List BulkEv :=
  BulkEv.submit j :: (errEvs (out j)
    ++ (if j < k - 1 then [BulkEv.pauseInterBatch] else []))

/-- Claim-level scheduling trace of a k-batch run starting at index i
    with n batches remaining: the event blocks of batches i, i+1, ...
    in ascending order. -/
def evSeqIdx (out : Nat → BOutcome) (k : Nat) : Nat → Nat → List BulkEv
  | _, 0 => []
  | i, n + 1 => evFor out k i ++ evSeqIdx out k (i + 1) n

/-- Sum of the per-ticket result counts of the successful batches among
    batches i, i+1, ..., i+n-1. -/
def okSumIdx (out : Nat → BOutcome) : Nat → Nat → Nat
  | _, 0 => 0
  | i, n + 1 => resultLen (out i) + okSumIdx out (i + 1) n

/-- The batch indices a trace submitted, in order. -/
def submitsOf : List BulkEv → List Nat
  | [] => []
  | BulkEv.submit j :: rest => j :: submitsOf rest
  | _ :: rest => submitsOf rest

/-- The list i, i+1, ..., i+n-1. -/
def idxList : Nat → Nat → List Nat
  | _, 0 => []
  | i, n + 1 => i :: idxList (i + 1) n

/-- Character-level restatement of the buffering loop, used to prove that
    chunk boundaries are invisible: a newline ends the buffered line and
    processes it, any other character extends the pending buffer. -/
def charStep (s : RState) (c : Char) : RState :=
  if c = '\n' then { core := lineStep s.core s.buffer, buffer := [] }
  else { core := s.core, buffer := s.buffer ++ [c] }

theorem splitNl_nlFree (l : List Char) (h : '\n' ∉ l) : splitNl l = ([], l) := by
  induction l with
  | nil => rfl
  | cons c t ih =>
    simp only [List.mem_cons, not_or] at h
    have hc : ¬ c = '\n' := fun hcc => h.1 hcc.symm
    simp [splitNl, ih h.2, hc]

theorem splitNl_pend (l : List Char) : '\n' ∉ (splitNl l).2 := by
  induction l with
  | nil => simp [splitNl]
  | cons c t ih =>
    by_cases hc : c = '\n'
    · simpa [splitNl, hc] using ih
    · cases h1 : (splitNl t).1 with
      | nil =>
        have hcn : ¬ '\n' = c := fun hcc => hc hcc.symm
        simp [splitNl, hc, h1, hcn]
        exact ih
      | cons l0 ls => simpa [splitNl, hc, h1] using ih

theorem splitNl_append_nl (x y : List Char) (h : '\n' ∉ x) :
    splitNl (x ++ '\n' :: y) = (x :: (splitNl y).1, (splitNl y).2) := by
  induction x with
  | nil => simp [splitNl]
  | cons a x2 ih =>
    simp only [List.mem_cons, not_or] at h
    have ha : ¬ a = '\n' := fun haa => h.1 haa.symm
    have ih2 := ih h.2
    simp [splitNl, List.cons_append, ih2, ha]

theorem foldl_charStep_eq_feed (chunk : List Char) (s : RState)
    (h : '\n' ∉ s.buffer) : chunk.foldl charStep s = feed s chunk := by
  induction chunk generalizing s with
  | nil =>
    simp [feed, splitNl_nlFree s.buffer h]
  | cons c cs ih =>
    by_cases hc : c = '\n'
    · subst hc
      have hstep : charStep s '\n' = { core := lineStep s.core s.buffer, buffer := [] } := by
        simp [charStep]
      have hnb : '\n' ∉ ([] : List Char) := by simp
      calc ('\n' :: cs).foldl charStep s
          = cs.foldl charStep (charStep s '\n') := by simp
        _ = feed (charStep s '\n') cs := by
            rw [hstep] at *
            exact ih _ hnb
        _ = feed s ('\n' :: cs) := by
            rw [hstep]
            simp [feed, splitNl_append_nl s.buffer cs h]
    · have hstep : charStep s c = { core := s.core, buffer := s.buffer ++ [c] } := by
        simp [charStep, hc]
      have hnb : '\n' ∉ s.buffer ++ [c] := by
        simp [List.mem_append, h]
        exact fun hcc => hc hcc.symm
      calc (c :: cs).foldl charStep s
          = cs.foldl charStep (charStep s c) := by simp
        _ = feed (charStep s c) cs := by
            rw [hstep] at *
            exact ih _ hnb
        _ = feed s (c :: cs) := by
            rw [hstep]
            simp [feed, List.append_assoc]

theorem feed_buffer_nlFree (s : RState) (chunk : List Char) :
    '\n' ∉ (feed s chunk).buffer := by
  simpa [feed] using splitNl_pend (s.buffer ++ chunk)

theorem foldl_feed_join (chunks : List (List Char)) (s : RState)
    (h : '\n' ∉ s.buffer) : chunks.foldl feed s = feed s chunks.flatten := by
  induction chunks generalizing s with
  | nil =>
    simpa using foldl_charStep_eq_feed [] s h
  | cons a rest ih =>
    have h1 : (a :: rest).foldl feed s = rest.foldl feed (feed s a) := by simp
    have h2 : rest.foldl feed (feed s a) = feed (feed s a) rest.flatten :=
      ih (feed s a) (feed_buffer_nlFree s a)
    have h3 : feed s (a ++ rest.flatten) = feed (feed s a) rest.flatten := by
      have e1 : (a ++ rest.flatten).foldl charStep s = feed s (a ++ rest.flatten) :=
        foldl_charStep_eq_feed _ s h
      have e2 : (a ++ rest.flatten).foldl charStep s
          = rest.flatten.foldl charStep (a.foldl charStep s) := by
        rw [List.foldl_append]
      have e3 : a.foldl charStep s = feed s a := foldl_charStep_eq_feed a s h
      have e4 : rest.flatten.foldl charStep (feed s a) = feed (feed s a) rest.flatten :=
        foldl_charStep_eq_feed _ (feed s a) (feed_buffer_nlFree s a)
      rw [e3] at e2
      rw [e4] at e2
      rw [← e1, e2]
    rw [h1, h2, ← h3]
    simp

/-- C1. For every event stream and every way of splitting its text into
    chunks, including splits in the middle of a line, the chat stream
    reducer reconstructs exactly the same final turn state (in particular
    the same appended assistant messages and the same citation set) as
    when the whole stream arrives as one unsplit chunk: the reducer
    appends each chunk to a pending buffer, holds back the last possibly
    incomplete line, and processes only complete lines. -/
theorem chat_reducer_chunking_invariant (c0 : Core) (captured : Bool)
    (chunks : List (List Char)) :
    runChatFrom c0 captured chunks = runChatFrom c0 captured [chunks.flatten] := by
  have h0 : '\n' ∉ (RState.mk c0 []).buffer := by simp
  have h1 := foldl_feed_join chunks (RState.mk c0 []) h0
  have h2 := foldl_feed_join [chunks.flatten] (RState.mk c0 []) h0
  simp only [runChatFrom, h1, h2, List.flatten]
  simp

theorem truthyNullLem : Json.null.truthy = false := rfl

theorem truthyStrLem (s : String) : (Json.str s).truthy = !decide (s = "") := by
  simp [Json.truthy]

theorem truthyArrLem (xs : List Json) : (Json.arr xs).truthy = true := rfl

theorem truthyObjLem (kvs : List (String × Json)) : (Json.obj kvs).truthy = true := rfl

/-- A rag_answer final_response body with answer D and source list C. -/
def ragFinalResponse (D : String) (C : List Json) : Json :=
  Json.obj [("response_type", Json.str "rag_answer"),
            ("rag_response", Json.obj [("answer", Json.str D),
                                       ("sources", Json.arr C)])]

/-- A routing_message final_response body with message D. -/
def routingFinalResponse (D : String) : Json :=
  Json.obj [("response_type", Json.str "routing_message"),
            ("routing_response", Json.obj [("message", Json.str D)])]

/-- The flattened terminal shape: internal_analysis and final_response
    at top level, no type wrapper. -/
def flatShape (ia fr : Json) : Json :=
  Json.obj [("internal_analysis", ia), ("final_response", fr)]

/-- The final_result-wrapped terminal shape. -/
def wrappedShape (ia fr : Json) : Json :=
  Json.obj [("type", Json.str "final_result"), ("data", flatShape ia fr)]

/-- The legacy terminal shape: response.data carries the answer text and
    response.citations, when present, carries the citation list. -/
def legacyShape (D : String) (cits : Option (List Json)) : Json :=
  Json.obj [("response",
    Json.obj (("data", Json.str D) ::
      (match cits with
       | some cs => [("citations", Json.arr cs)]
       | none => [])))]

/-- C2. Semantically equivalent terminal payloads delivered in any of the
    three accepted shapes produce an identical normalized result: the same
    assistant message is appended and the citation set ends up equal. The
    state c is any state at the point the terminal line arrives in a turn;
    its citation set is the empty array because every turn resets the
    citations at dispatch. For a rag payload the equivalent legacy payload
    carries the source list as its citations field; for a routing payload,
    which has no sources, the equivalent legacy payload has no citations
    field. -/
theorem terminal_shape_equivalence (c : Core) (ia : Json) (D : String)
    (C : List Json) (hia : ia.truthy = true) (hD : D ≠ "")
    (hc : c.citations = Json.arr []) :
    ((handleParsed c (flatShape ia (ragFinalResponse D C))).messages
        = c.messages ++ [⟨"assistant", Json.str D⟩]
      ∧ (handleParsed c (wrappedShape ia (ragFinalResponse D C))).messages
        = (handleParsed c (flatShape ia (ragFinalResponse D C))).messages
      ∧ (handleParsed c (legacyShape D (some C))).messages
        = (handleParsed c (flatShape ia (ragFinalResponse D C))).messages
      ∧ (handleParsed c (flatShape ia (ragFinalResponse D C))).citations
        = Json.arr C
      ∧ (handleParsed c (wrappedShape ia (ragFinalResponse D C))).citations
        = Json.arr C
      ∧ (handleParsed c (legacyShape D (some C))).citations
        = Json.arr C)
    ∧ ((handleParsed c (flatShape ia (routingFinalResponse D))).messages
        = c.messages ++ [⟨"assistant", Json.str D⟩]
      ∧ (handleParsed c (wrappedShape ia (routingFinalResponse D))).messages
        = (handleParsed c (flatShape ia (routingFinalResponse D))).messages
      ∧ (handleParsed c (legacyShape D none)).messages
        = (handleParsed c (flatShape ia (routingFinalResponse D))).messages
      ∧ (handleParsed c (flatShape ia (routingFinalResponse D))).citations
        = Json.arr []
      ∧ (handleParsed c (wrappedShape ia (routingFinalResponse D))).citations
        = Json.arr []
      ∧ (handleParsed c (legacyShape D none)).citations
        = Json.arr []) := by
  rcases C with _ | ⟨x, xs⟩ <;>
    simp [handleParsed, flatShape, wrappedShape, legacyShape, ragFinalResponse,
      routingFinalResponse, jsGet, assocGet, isStrEq, jsOr, lenPos, clearRl,
      truthyNullLem, truthyStrLem, truthyArrLem, truthyObjLem, hia, hD, hc]

theorem terminal_shape_equivalence_witness :
    (Json.obj ([] : List (String × Json))).truthy = true
    ∧ ("hi" : String) ≠ ""
    ∧ initialCore.citations = Json.arr []
    ∧ (((handleParsed initialCore
          (flatShape (Json.obj []) (ragFinalResponse "hi" [Json.str "doc"]))).messages
        = initialCore.messages ++ [⟨"assistant", Json.str "hi"⟩]
      ∧ (handleParsed initialCore
          (wrappedShape (Json.obj []) (ragFinalResponse "hi" [Json.str "doc"]))).messages
        = (handleParsed initialCore
            (flatShape (Json.obj []) (ragFinalResponse "hi" [Json.str "doc"]))).messages
      ∧ (handleParsed initialCore (legacyShape "hi" (some [Json.str "doc"]))).messages
        = (handleParsed initialCore
            (flatShape (Json.obj []) (ragFinalResponse "hi" [Json.str "doc"]))).messages
      ∧ (handleParsed initialCore
          (flatShape (Json.obj []) (ragFinalResponse "hi" [Json.str "doc"]))).citations
        = Json.arr [Json.str "doc"]
      ∧ (handleParsed initialCore
          (wrappedShape (Json.obj []) (ragFinalResponse "hi" [Json.str "doc"]))).citations
        = Json.arr [Json.str "doc"]
      ∧ (handleParsed initialCore (legacyShape "hi" (some [Json.str "doc"]))).citations
        = Json.arr [Json.str "doc"])
    ∧ ((handleParsed initialCore
          (flatShape (Json.obj []) (routingFinalResponse "hi"))).messages
        = initialCore.messages ++ [⟨"assistant", Json.str "hi"⟩]
      ∧ (handleParsed initialCore
          (wrappedShape (Json.obj []) (routingFinalResponse "hi"))).messages
        = (handleParsed initialCore
            (flatShape (Json.obj []) (routingFinalResponse "hi"))).messages
      ∧ (handleParsed initialCore (legacyShape "hi" none)).messages
        = (handleParsed initialCore
            (flatShape (Json.obj []) (routingFinalResponse "hi"))).messages
      ∧ (handleParsed initialCore
          (flatShape (Json.obj []) (routingFinalResponse "hi"))).citations
        = Json.arr []
      ∧ (handleParsed initialCore
          (wrappedShape (Json.obj []) (routingFinalResponse "hi"))).citations
        = Json.arr []
      ∧ (handleParsed initialCore (legacyShape "hi" none)).citations
        = Json.arr [])) :=
  ⟨rfl, by decide, rfl,
    terminal_shape_equivalence initialCore (Json.obj []) "hi" [Json.str "doc"]
      rfl (by decide) rfl⟩

theorem mkBatches_length (l : List Json) :
    (mkBatches l).length = (l.length + 4) / 5 := by
  induction l using mkBatches.induct with
  | case1 => simp [mkBatches]
  | case2 x xs ih =>
    simp only [mkBatches, List.length_cons, List.length_drop] at ih ⊢
    omega

theorem mkBatches_sum_lengths (l : List Json) :
    ((mkBatches l).map List.length).sum = l.length := by
  induction l using mkBatches.induct with
  | case1 => simp [mkBatches]
  | case2 x xs ih =>
    simp only [mkBatches, List.map_cons, List.sum_cons, List.length_drop,
      List.length_cons, List.length_take] at ih ⊢
    omega

theorem batchStep_processed (k i : Nat) (st : BulkState) (b : List Json)
    (o : BOutcome) :
    (batchStep k i st b o).1.processedCount = st.processedCount + resultLen o := by
  cases o with
  | ok rs => simp [batchStep, resultLen]
  | err m =>
    by_cases hm : m = "" <;> simp [batchStep, resultLen, hm]

theorem batchStep_total (k i : Nat) (st : BulkState) (b : List Json)
    (o : BOutcome) :
    (batchStep k i st b o).1.totalCount = st.totalCount := by
  cases o with
  | ok rs => simp [batchStep]
  | err m =>
    by_cases hm : m = "" <;> simp [batchStep, hm]

theorem batchStep_trace (k i : Nat) (st : BulkState) (b : List Json)
    (o : BOutcome) :
    (batchStep k i st b o).2
      = BulkEv.submit i ::
          (errEvs o ++ (if i < k - 1 then [BulkEv.pauseInterBatch] else [])) := by
  cases o with
  | ok rs => simp [batchStep, errEvs]
  | err m =>
    by_cases hm : m = "" <;> simp [batchStep, errEvs, hm]

theorem runBulkAux_processed (out : Nat → BOutcome) (k : Nat)
    (bs : List (List Json)) :
    ∀ (i : Nat) (st : BulkState),
      (runBulkAux out k i bs st).1.processedCount
        = st.processedCount + okSumIdx out i bs.length := by
  induction bs with
  | nil => intro i st; simp [runBulkAux, okSumIdx]
  | cons b bs ih =>
    intro i st
    simp only [runBulkAux, List.length_cons, okSumIdx]
    rw [ih (i + 1), batchStep_processed]
    omega

theorem runBulkAux_total (out : Nat → BOutcome) (k : Nat)
    (bs : List (List Json)) :
    ∀ (i : Nat) (st : BulkState),
      (runBulkAux out k i bs st).1.totalCount = st.totalCount := by
  induction bs with
  | nil => intro i st; simp [runBulkAux]
  | cons b bs ih =>
    intro i st
    simp only [runBulkAux]
    rw [ih (i + 1), batchStep_total]

theorem runBulkAux_trace (out : Nat → BOutcome) (k : Nat)
    (bs : List (List Json)) :
    ∀ (i : Nat) (st : BulkState),
      (runBulkAux out k i bs st).2 = evSeqIdx out k i bs.length := by
  induction bs with
  | nil => intro i st; simp [runBulkAux, evSeqIdx]
  | cons b bs ih =>
    intro i st
    simp only [runBulkAux, List.length_cons, evSeqIdx, evFor]
    rw [ih (i + 1), batchStep_trace]

theorem submitsOf_append (a b : List BulkEv) :
    submitsOf (a ++ b) = submitsOf a ++ submitsOf b := by
  induction a with
  | nil => simp [submitsOf]
  | cons e rest ih =>
    cases e <;> simp [submitsOf, ih]

theorem submitsOf_evFor (out : Nat → BOutcome) (k i : Nat) :
    submitsOf (evFor out k i) = [i] := by
  cases h : out i with
  | ok rs =>
    by_cases hk : i < k - 1 <;>
      simp [evFor, errEvs, h, hk, submitsOf, submitsOf_append]
  | err m =>
    by_cases hm : m = "" <;> by_cases hk : i < k - 1 <;>
      simp [evFor, errEvs, h, hk, hm, submitsOf, submitsOf_append]

theorem submitsOf_evSeqIdx (out : Nat → BOutcome) (k : Nat) :
    ∀ (n i : Nat), submitsOf (evSeqIdx out k i n) = idxList i n := by
  intro n
  induction n with
  | zero => intro i; simp [evSeqIdx, idxList, submitsOf]
  | succ n ih =>
    intro i
    simp [evSeqIdx, idxList, submitsOf_append, submitsOf_evFor, ih]

theorem idxList_eq_range' : ∀ (n i : Nat), idxList i n = List.range' i n := by
  intro n
  induction n with
  | zero => intro i; simp [idxList]
  | succ n ih => intro i; simp [idxList, List.range', ih]

/-- C3. For every ticket list of N tickets and every outcome of the batch
    streams, the orchestrator forms exactly the ceiling of N over 5
    batches (in natural division, (N + 4) / 5); the run submits every
    batch strictly in ascending order regardless of failures, so a failed
    batch never halts the run; the scheduling trace is exactly one event
    block per batch, each block carrying the fixed inter-batch pause
    exactly when another batch follows (and never after the last); and
    the final processed count is exactly the sum of the per-ticket result
    counts of the successful batches, failed batches contributing zero. -/
theorem bulk_orchestrator_correct (out : Nat → BOutcome) (data : List Json)
    (st0 : BulkState) :
    (mkBatches data).length = (data.length + 4) / 5
    ∧ (startBulkProcessing out data st0).2
        = evSeqIdx out (mkBatches data).length 0 (mkBatches data).length
    ∧ submitsOf (startBulkProcessing out data st0).2
        = List.range (mkBatches data).length
    ∧ (startBulkProcessing out data st0).1.processedCount
        = okSumIdx out 0 (mkBatches data).length := by
  refine ⟨mkBatches_length data, ?_, ?_, ?_⟩
  · simp only [startBulkProcessing]
    rw [runBulkAux_trace]
  · simp only [startBulkProcessing]
    rw [runBulkAux_trace, submitsOf_evSeqIdx, idxList_eq_range',
      List.range_eq_range']
  · simp only [startBulkProcessing]
    rw [runBulkAux_processed]
    simp

/-- Sum of the sizes of batches i, i+1, ..., i+n-1 of a batch list. -/
def sumLenIdx (bs : List (List Json)) : Nat → Nat → Nat
  | _, 0 => 0
  | i, n + 1 => (bs.getD i []).length + sumLenIdx bs (i + 1) n

theorem okSumIdx_le_sumLenIdx (out : Nat → BOutcome) (bs : List (List Json)) :
    ∀ (n i : Nat),
      (∀ j, i ≤ j → j < i + n → resultLen (out j) ≤ (bs.getD j []).length) →
      okSumIdx out i n ≤ sumLenIdx bs i n := by
  intro n
  induction n with
  | zero => intro i h; simp [okSumIdx, sumLenIdx]
  | succ n ih =>
    intro i h
    have h0 : resultLen (out i) ≤ (bs.getD i []).length :=
      h i (Nat.le_refl i) (by omega)
    have h1 : okSumIdx out (i + 1) n ≤ sumLenIdx bs (i + 1) n :=
      ih (i + 1) (fun j hj1 hj2 => h j (by omega) (by omega))
    simp only [okSumIdx, sumLenIdx]
    omega

theorem sumLenIdx_shift (b : List Json) (bs : List (List Json)) :
    ∀ (n i : Nat), sumLenIdx (b :: bs) (i + 1) n = sumLenIdx bs i n := by
  intro n
  induction n with
  | zero => intro i; simp [sumLenIdx]
  | succ n ih =>
    intro i
    simp only [sumLenIdx, List.getD]
    rw [ih (i + 1)]
    simp [List.getD]

theorem sumLenIdx_full (bs : List (List Json)) :
    sumLenIdx bs 0 bs.length = (bs.map List.length).sum := by
  induction bs with
  | nil => simp [sumLenIdx]
  | cons b bs ih =>
    simp only [List.length_cons, sumLenIdx, List.map_cons, List.sum_cons]
    rw [sumLenIdx_shift, ih]
    simp [List.getD]

/-- The useState initial values of the bulk-mode state. -/
def initialBulkState : BulkState :=
  { isLoading := false, currentStatus := "", bulkResults := [],
    processedCount := 0, totalCount := 0 }

/-- C7. The processed count is monotonically non-decreasing across every
    step of a bulk run, and when every successful batch stream returns at
    most one result per ticket of that batch (the per-ticket contract of
    the bulk endpoint), the processed count after a full
    upload-then-process run never exceeds the recorded total ticket
    count; any gap is the contribution of failed batches, which add
    nothing. -/
theorem processed_count_invariant (out : Nat → BOutcome) (data : List Json)
    (st0 : BulkState)
    (hbound : ∀ i, i < (mkBatches data).length →
      resultLen (out i) ≤ ((mkBatches data).getD i []).length) :
    (∀ (k i : Nat) (st : BulkState) (b : List Json) (o : BOutcome),
      st.processedCount ≤ (batchStep k i st b o).1.processedCount)
    ∧ (startBulkProcessing out data (handleFileUpload data st0)).1.processedCount
        ≤ (startBulkProcessing out data (handleFileUpload data st0)).1.totalCount := by
  constructor
  · intro k i st b o
    rw [batchStep_processed]
    omega
  · have hp : (startBulkProcessing out data (handleFileUpload data st0)).1.processedCount
        = okSumIdx out 0 (mkBatches data).length :=
      (bulk_orchestrator_correct out data (handleFileUpload data st0)).2.2.2
    have ht : (startBulkProcessing out data (handleFileUpload data st0)).1.totalCount
        = data.length := by
      simp only [startBulkProcessing]
      rw [runBulkAux_total]
      simp [handleFileUpload]
    rw [hp, ht]
    have h1 : okSumIdx out 0 (mkBatches data).length
        ≤ sumLenIdx (mkBatches data) 0 (mkBatches data).length :=
      okSumIdx_le_sumLenIdx out (mkBatches data) (mkBatches data).length 0
        (fun j hj1 hj2 => hbound j (by omega))
    have h2 : sumLenIdx (mkBatches data) 0 (mkBatches data).length = data.length := by
      rw [sumLenIdx_full, mkBatches_sum_lengths]
    omega

theorem processed_count_invariant_witness :
    (∀ i, i < (mkBatches [Json.null, Json.null, Json.null, Json.null,
        Json.null, Json.null]).length →
      resultLen ((fun _ => BOutcome.err "boom") i)
        ≤ ((mkBatches [Json.null, Json.null, Json.null, Json.null,
            Json.null, Json.null]).getD i []).length)
    ∧ ((∀ (k i : Nat) (st : BulkState) (b : List Json) (o : BOutcome),
        st.processedCount ≤ (batchStep k i st b o).1.processedCount)
      ∧ (startBulkProcessing (fun _ => BOutcome.err "boom")
          [Json.null, Json.null, Json.null, Json.null, Json.null, Json.null]
          (handleFileUpload
            [Json.null, Json.null, Json.null, Json.null, Json.null, Json.null]
            initialBulkState)).1.processedCount
        ≤ (startBulkProcessing (fun _ => BOutcome.err "boom")
            [Json.null, Json.null, Json.null, Json.null, Json.null, Json.null]
            (handleFileUpload
              [Json.null, Json.null, Json.null, Json.null, Json.null, Json.null]
              initialBulkState)).1.totalCount) :=
  ⟨fun _ _ => Nat.zero_le _,
   processed_count_invariant (fun _ => BOutcome.err "boom")
     [Json.null, Json.null, Json.null, Json.null, Json.null, Json.null]
     initialBulkState (fun _ _ => Nat.zero_le _)⟩

/-- C4. The rate-limit watchdog can never fire its advisory: the callback
    guards on the isLoading value captured by the dispatch closure, and
    every dispatch path runs while isLoading is false (the send button
    and the enter key are disabled during loading), so fifteen seconds
    into a turn with no terminal payload the callback runs its guard on
    the stale false value and changes nothing: no advisory message is
    appended and the loading indicator keeps running, although the state
    set up by the turn has isLoading true. -/
theorem watchdog_never_fires (st : Core) (message : String)
    (h : st.isLoading = false) :
    watchdogFire (turnStart st message).2 (turnStart st message).1
      = (turnStart st message).1
    ∧ (turnStart st message).1.isLoading = true := by
  constructor
  · simp [watchdogFire, turnStart, h]
  · simp [turnStart]

theorem watchdog_never_fires_witness :
    initialCore.isLoading = false
    ∧ (watchdogFire (turnStart initialCore "q").2 (turnStart initialCore "q").1
        = (turnStart initialCore "q").1
      ∧ (turnStart initialCore "q").1.isLoading = true) :=
  ⟨rfl, watchdog_never_fires initialCore "q" rfl⟩

/-- The reducer state right after a turn starts from the initial page
    state with query q. -/
def chatTurnCore : Core := (turnStart initialCore "q").1

set_option maxRecDepth 8000 in
/-- C5 counterexample: the completion sentinel does not stop the reducer
    from reading the stream. In a stream whose sentinel line is followed
    by a further terminal payload line, the later line is still processed
    and its assistant message is appended, which contradicts processing
    ending at the sentinel. -/
theorem sentinel_does_not_stop_reading :
    (runChatFrom chatTurnCore false
      [("data: [DONE]\ndata: \x7b\"response\":\x7b\"data\":\"hi\"\x7d\x7d\n").toList]).messages
    = chatTurnCore.messages ++ [⟨"assistant", Json.str "hi"⟩] := by
  rfl

/-- C5 amended: when the reducer reads a line whose payload is the
    literal completion sentinel, it clears the loading flag and the
    status, and the sentinel is never handed to the JSON parser (the
    resulting state does not depend on any parse); the accompanying
    timer clear is guarded by the stale rateLimitTimer value the
    dispatch closure captured, so the timer state variable is nulled
    only when that captured value was truthy — on a first turn, where
    it is null, the timer state is left unchanged — and the timeout
    armed for the current turn is never cancelled (its pending flag is
    untouched); the reducer then continues with subsequent lines and
    chunks rather than stopping the read. -/
theorem sentinel_line_effect (c : Core) :
    lineStep c (dataMarker ++ doneToken)
      = { c with
          isLoading := false,
          currentStatus := "",
          rlTimerSet := if c.capturedRlTruthy then false else c.rlTimerSet }
    ∧ (lineStep c (dataMarker ++ doneToken)).rlPending = c.rlPending
    ∧ (lineStep chatTurnCore (dataMarker ++ doneToken)).rlTimerSet
        = chatTurnCore.rlTimerSet := by
  exact ⟨rfl, rfl, rfl⟩

/-- A flattened terminal payload line without a trailing newline,
    arriving as the end of a stream. -/
def flatTrailing : List Char :=
  ("data: \x7b\"internal_analysis\":\x7b\"classification\":\x7b\"priority\":\"P2\"\x7d\x7d,\"final_response\":\x7b\"response_type\":\"rag_answer\",\"rag_response\":\x7b\"answer\":\"Use the guide.\",\"sources\":[]\x7d\x7d\x7d").toList

/-- The same terminal payload wrapped in the final_result shape, again
    without a trailing newline. -/
def wrappedTrailing : List Char :=
  ("data: \x7b\"type\":\"final_result\",\"data\":\x7b\"internal_analysis\":\x7b\"classification\":\x7b\"priority\":\"P2\"\x7d\x7d,\"final_response\":\x7b\"response_type\":\"rag_answer\",\"rag_response\":\x7b\"answer\":\"Use the guide.\",\"sources\":[]\x7d\x7d\x7d\x7d").toList

set_option maxRecDepth 20000 in
/-- C6 counterexample: the end-of-stream flush does not deliver every
    accepted terminal shape. A trailing unterminated line holding a valid
    flattened terminal payload is silently dropped (no assistant message),
    while the identical payload in the final_result-wrapped shape is
    delivered from the same trailing position. -/
theorem trailing_flattened_payload_dropped :
    (runChatFrom chatTurnCore false [flatTrailing]).messages
      = chatTurnCore.messages
    ∧ (runChatFrom chatTurnCore false [wrappedTrailing]).messages
      = chatTurnCore.messages ++ [⟨"assistant", Json.str "Use the guide."⟩] :=
  ⟨rfl, rfl⟩

/-- C6 amended: on stream end the reducer does run a final processing
    pass over the buffered trailing line, but that pass recognizes only
    the final_result-wrapped terminal shape: any payload not of that
    shape leaves the state unchanged, while a wrapped payload with a
    non-empty answer has its assistant message appended. -/
theorem flush_delivers_only_wrapped (c : Core) (ia : Json) (D : String)
    (C : List Json) (p : Json) (hD : D ≠ "")
    (hnw : (isStrEq (jsGet p "type") "final_result"
        && (jsGet p "data").truthy) = false) :
    flushHandle c p = c
    ∧ (flushHandle c (wrappedShape ia (ragFinalResponse D C))).messages
        = c.messages ++ [⟨"assistant", Json.str D⟩] := by
  constructor
  · simp only [flushHandle, hnw]
    simp
  · rcases C with _ | ⟨x, xs⟩ <;> cases hia : ia.truthy <;>
      simp [flushHandle, wrappedShape, flatShape, ragFinalResponse, jsGet,
        assocGet, isStrEq, jsOr, lenPos, truthyNullLem, truthyStrLem,
        truthyArrLem, truthyObjLem, hia, hD]

theorem flush_delivers_only_wrapped_witness :
    ("hi" : String) ≠ ""
    ∧ (isStrEq (jsGet Json.null "type") "final_result"
        && (jsGet Json.null "data").truthy) = false
    ∧ (flushHandle initialCore Json.null = initialCore
      ∧ (flushHandle initialCore
          (wrappedShape Json.null (ragFinalResponse "hi" []))).messages
        = initialCore.messages ++ [⟨"assistant", Json.str "hi"⟩]) :=
  ⟨by decide, rfl,
   flush_delivers_only_wrapped initialCore Json.null "hi" [] Json.null
     (by decide) rfl⟩

/-- C8 counterexample: for a node outside the fixed table the fallback
    does not strip a leading Completed verb from the raw message, as the
    claim states; it rewrites it to Finished followed by a space. -/
theorem completed_verb_rewritten_not_stripped :
    getFriendlyStatusMessage "other_node" "Completed indexing"
      = "Finished indexing"
    ∧ getFriendlyStatusMessage "other_node" "Completed indexing"
      ≠ "indexing" := by
  constructor
  · rfl
  · decide

/-- C8 amended: the status mapper sends each of the four table nodes to
    its fixed phrase regardless of the raw message, and sends every node
    outside the table to the generic cleanup of the raw message, which
    removes the first case-insensitive occurrence of Processing followed
    by whitespace and replaces the first case-insensitive occurrence of
    Completed followed by whitespace with Finished and a space; being a
    total function it never errors. -/
theorem status_mapping_correct (node message : String)
    (h : statusMap node = none) :
    getFriendlyStatusMessage node message = cleanupMessage message
    ∧ getFriendlyStatusMessage "classify" message
      = "Understanding your question..."
    ∧ getFriendlyStatusMessage "agent" message = "Preparing response..."
    ∧ getFriendlyStatusMessage "document_search" message
      = "Searching knowledge base..."
    ∧ getFriendlyStatusMessage "finalize_response" message
      = "Finalizing answer..." := by
  refine ⟨?_, rfl, rfl, rfl, rfl⟩
  simp [getFriendlyStatusMessage, h]

theorem status_mapping_correct_witness :
    statusMap "deploy" = none
    ∧ (getFriendlyStatusMessage "deploy" "Completed indexing"
        = cleanupMessage "Completed indexing"
      ∧ getFriendlyStatusMessage "classify" "Completed indexing"
        = "Understanding your question..."
      ∧ getFriendlyStatusMessage "agent" "Completed indexing"
        = "Preparing response..."
      ∧ getFriendlyStatusMessage "document_search" "Completed indexing"
        = "Searching knowledge base..."
      ∧ getFriendlyStatusMessage "finalize_response" "Completed indexing"
        = "Finalizing answer...") :=
  ⟨rfl, status_mapping_correct "deploy" "Completed indexing" rfl⟩

/-- A data line whose payload is non-empty, is not the sentinel, and
    fails to parse as JSON. -/
def malformedDataLine (l : List Char) : Bool :=
  (l.take 6 = dataMarker) && !(lineData l = []) && !(lineData l = doneToken)
    && (jsonParse (lineData l)).isNone

theorem lineStep_skips_malformed (c : Core) (l : List Char)
    (h : malformedDataLine l = true) : lineStep c l = c := by
  simp only [malformedDataLine, Bool.and_eq_true, decide_eq_true_eq,
    Bool.not_eq_true', decide_eq_false_iff_not,
    Option.isNone_iff_eq_none] at h
  obtain ⟨⟨⟨h1, h2⟩, h3⟩, h4⟩ := h
  simp [lineStep, h1, h2, h3, h4]

/-- C9. A data line that fails to parse as JSON is skipped and is never
    fatal: the reducer continues with the next line, and removing the
    malformed data lines from any line sequence leaves the final
    reconstructed state unchanged, so interleaving malformed lines
    between valid ones does not affect the result. -/
theorem malformed_lines_skipped (c : Core) (lines : List (List Char)) :
    lines.foldl lineStep c
      = (lines.filter (fun l => !malformedDataLine l)).foldl lineStep c := by
  induction lines generalizing c with
  | nil => rfl
  | cons l ls ih =>
    by_cases h : malformedDataLine l = true
    · rw [List.foldl_cons, lineStep_skips_malformed c l h]
      simp only [List.filter_cons, h]
      simp only [Bool.not_true, ite_false]
      exact ih c
    · have h2 : malformedDataLine l = false := by
        revert h; cases malformedDataLine l <;> simp
      simp only [List.filter_cons, h2, Bool.not_false, ite_true,
        List.foldl_cons]
      exact ih (lineStep c l)

/-- A flattened terminal payload declaring a rag_answer but carrying no
    rag_response field, so its extracted answer content is empty. -/
def flatNoRagShape (ia : Json) : Json :=
  flatShape ia (Json.obj [("response_type", Json.str "rag_answer")])

/-- A final_result payload whose final_response has neither an answer
    nor a routing message. -/
def wrappedEmptyShape (ia : Json) : Json :=
  wrappedShape ia (Json.obj [])

/-- C10. A terminal payload whose extracted answer content is empty, in
    either the flattened shape with a rag_answer type but no rag_response
    or the final_result shape with neither answer nor routing message,
    clears the loading state and the status but appends no assistant
    message: the session message list is left unchanged. -/
theorem empty_terminal_no_message (c : Core) (ia : Json)
    (hia : ia.truthy = true) :
    ((handleParsed c (flatNoRagShape ia)).messages = c.messages
      ∧ (handleParsed c (flatNoRagShape ia)).isLoading = false
      ∧ (handleParsed c (flatNoRagShape ia)).currentStatus = "")
    ∧ ((handleParsed c (wrappedEmptyShape ia)).messages = c.messages
      ∧ (handleParsed c (wrappedEmptyShape ia)).isLoading = false
      ∧ (handleParsed c (wrappedEmptyShape ia)).currentStatus = "") := by
  simp [handleParsed, flatNoRagShape, wrappedEmptyShape, flatShape,
    wrappedShape, jsGet, assocGet, isStrEq, jsOr, lenPos, clearRl,
    truthyNullLem, truthyStrLem, truthyArrLem, truthyObjLem, hia]

theorem empty_terminal_no_message_witness :
    (Json.obj ([] : List (String × Json))).truthy = true
    ∧ (((handleParsed initialCore (flatNoRagShape (Json.obj []))).messages
          = initialCore.messages
        ∧ (handleParsed initialCore (flatNoRagShape (Json.obj []))).isLoading
          = false
        ∧ (handleParsed initialCore
            (flatNoRagShape (Json.obj []))).currentStatus = "")
      ∧ ((handleParsed initialCore (wrappedEmptyShape (Json.obj []))).messages
          = initialCore.messages
        ∧ (handleParsed initialCore
            (wrappedEmptyShape (Json.obj []))).isLoading = false
        ∧ (handleParsed initialCore
            (wrappedEmptyShape (Json.obj []))).currentStatus = "")) :=
  ⟨rfl, empty_terminal_no_message initialCore (Json.obj []) rfl⟩
